import Mathlib

set_option maxHeartbeats 1000000

/-! Shallow embedding of the webhook-to-analysis pipeline of backend/index.js
(the `POST /api/webhooks/github` handler, the in-memory `analysesDB` store and
the `GET /api/analyses/:repoId` query). External HTTP calls (job listing, log
fetch with its redirect hop, and the generative-text completion) are modelled
as an explicit environment of `Except`-valued responses; any exception thrown
by those calls or by `JSON.parse` is caught by the handler's `try/catch` and
surfaces as the fall-through acknowledgement. -/

/-- JavaScript values as produced by `JSON.parse`. Numbers keep their source
lexeme, which the pipeline never inspects. -/
inductive JsValue : Type where
  | jnull : JsValue
  | jbool : Bool → JsValue
  | jnum : String → JsValue
  | jstr : String → JsValue
  | jarr : List JsValue → JsValue
  | jobj : List (String × JsValue) → JsValue

/-- Decode the character after a backslash for the simple JSON escapes. -/
def escChar : Char → Option Char
  | '"' => some '"'
  | '\\' => some '\\'
  | '/' => some '/'
  | 'b' => some (Char.ofNat 8)
  | 'f' => some (Char.ofNat 12)
  | 'n' => some '\n'
  | 'r' => some '\r'
  | 't' => some '\t'
  | _ => none

/-- Value of a hexadecimal digit, or `none`. -/
def hexDigitVal (c : Char) : Option Nat :=
  if c.isDigit then some (c.toNat - 48)
  else if 'a' ≤ c ∧ c ≤ 'f' then some (c.toNat - 87)
  else if 'A' ≤ c ∧ c ≤ 'F' then some (c.toNat - 55)
  else none

/-- Body of a JSON string literal after the opening quote: the decoded
characters and the input remaining after the closing quote. Control
characters below 0x20 and invalid escapes are rejected, as in `JSON.parse`. -/
def parseStrBody : List Char → Option (List Char × List Char)
  | [] => none
  | '"' :: rest => some ([], rest)
  | '\\' :: 'u' :: h1 :: h2 :: h3 :: h4 :: rest =>
    match hexDigitVal h1, hexDigitVal h2, hexDigitVal h3, hexDigitVal h4 with
    | some a, some b, some c, some d =>
      (parseStrBody rest).map
        (fun p => (Char.ofNat (((a * 16 + b) * 16 + c) * 16 + d) :: p.1, p.2))
    | _, _, _, _ => none
  | '\\' :: e :: rest =>
    match escChar e with
    | some c => (parseStrBody rest).map (fun p => (c :: p.1, p.2))
    | none => none
  | c :: rest =>
    if c.toNat < 32 then none
    else (parseStrBody rest).map (fun p => (c :: p.1, p.2))

/-- JSON insignificant whitespace: space, tab, line feed, carriage return. -/
def jsonWs (c : Char) : Bool := c = ' ' || c = '\t' || c = '\n' || c = '\r'

/-- Skip leading JSON whitespace. -/
def skipWs : List Char → List Char
  | [] => []
  | c :: r => if jsonWs c then skipWs r else c :: r

/-- Integer part of a JSON number: `0`, or a nonzero digit followed by digits. -/
def parseIntPart : List Char → Option (List Char × List Char)
  | [] => none
  | c :: r =>
    if c = '0' then some (['0'], r)
    else if c.isDigit then some (c :: r.takeWhile Char.isDigit, r.dropWhile Char.isDigit)
    else none

/-- Optional fraction part of a JSON number: a dot must be followed by digits. -/
def parseFracPart : List Char → Option (List Char × List Char)
  | '.' :: r =>
    if (r.takeWhile Char.isDigit).isEmpty then none
    else some ('.' :: r.takeWhile Char.isDigit, r.dropWhile Char.isDigit)
  | s => some ([], s)

/-- Optional exponent part of a JSON number. -/
def parseExpPart : List Char → Option (List Char × List Char)
  | [] => some ([], [])
  | c :: r =>
    if c = 'e' ∨ c = 'E' then
      match r with
      | s :: r2 =>
        if s = '+' ∨ s = '-' then
          if (r2.takeWhile Char.isDigit).isEmpty then none
          else some (c :: s :: r2.takeWhile Char.isDigit, r2.dropWhile Char.isDigit)
        else
          if (r.takeWhile Char.isDigit).isEmpty then none
          else some (c :: r.takeWhile Char.isDigit, r.dropWhile Char.isDigit)
      | [] => none
    else some ([], c :: r)

/-- A JSON number lexeme starting at the head of the input. -/
def parseNum (s : List Char) : Option (List Char × List Char) :=
  let sgn : List Char × List Char :=
    match s with
    | '-' :: r => (['-'], r)
    | _ => ([], s)
  match parseIntPart sgn.2 with
  | none => none
  | some (ip, r1) =>
    match parseFracPart r1 with
    | none => none
    | some (fp, r2) =>
      match parseExpPart r2 with
      | none => none
      | some (ep, r3) => some (sgn.1 ++ ip ++ fp ++ ep, r3)

mutual

/-- One JSON value, fuel-indexed recursive descent. Every recursive call
consumes at least one input character, so fuel `length + 2` always suffices. -/
def parseValue : Nat → List Char → Option (JsValue × List Char)
  | 0, _ => none
  | fuel + 1, s =>
    match skipWs s with
    | [] => none
    | c :: r =>
      if c = Char.ofNat 123 then
        (parseMembers fuel r).map (fun p => (JsValue.jobj p.1, p.2))
      else if c = '[' then
        (parseElems fuel r).map (fun p => (JsValue.jarr p.1, p.2))
      else if c = '"' then
        (parseStrBody r).map (fun p => (JsValue.jstr (String.mk p.1), p.2))
      else if c = 't' then
        if ['r', 'u', 'e'].isPrefixOf r then some (JsValue.jbool true, r.drop 3) else none
      else if c = 'f' then
        if ['a', 'l', 's', 'e'].isPrefixOf r then some (JsValue.jbool false, r.drop 4) else none
      else if c = 'n' then
        if ['u', 'l', 'l'].isPrefixOf r then some (JsValue.jnull, r.drop 3) else none
      else if c = '-' ∨ c.isDigit then
        (parseNum (c :: r)).map (fun p => (JsValue.jnum (String.mk p.1), p.2))
      else none

/-- Object members directly after the opening brace. -/
def parseMembers : Nat → List Char → Option (List (String × JsValue) × List Char)
  | 0, _ => none
  | fuel + 1, s =>
    match skipWs s with
    | [] => none
    | c :: r =>
      if c = Char.ofNat 125 then some ([], r)
      else if c = '"' then
        match parseStrBody r with
        | none => none
        | some (key, r2) =>
          match skipWs r2 with
          | ':' :: r3 =>
            match parseValue fuel r3 with
            | none => none
            | some (v, r4) =>
              (parseMembersMore fuel r4).map (fun p => ((String.mk key, v) :: p.1, p.2))
          | _ => none
      else none

/-- Remaining object members: a comma-led member or the closing brace. -/
def parseMembersMore : Nat → List Char → Option (List (String × JsValue) × List Char)
  | 0, _ => none
  | fuel + 1, s =>
    match skipWs s with
    | [] => none
    | c :: r =>
      if c = Char.ofNat 125 then some ([], r)
      else if c = ',' then
        match skipWs r with
        | '"' :: r2 =>
          match parseStrBody r2 with
          | none => none
          | some (key, r3) =>
            match skipWs r3 with
            | ':' :: r4 =>
              match parseValue fuel r4 with
              | none => none
              | some (v, r5) =>
                (parseMembersMore fuel r5).map (fun p => ((String.mk key, v) :: p.1, p.2))
            | _ => none
        | _ => none
      else none

/-- Array elements directly after the opening bracket. -/
def parseElems : Nat → List Char → Option (List JsValue × List Char)
  | 0, _ => none
  | fuel + 1, s =>
    match skipWs s with
    | [] => none
    | c :: r =>
      if c = ']' then some ([], r)
      else
        match parseValue fuel (c :: r) with
        | none => none
        | some (v, r2) => (parseElemsMore fuel r2).map (fun p => (v :: p.1, p.2))

/-- Remaining array elements: a comma-led element or the closing bracket. -/
def parseElemsMore : Nat → List Char → Option (List JsValue × List Char)
  | 0, _ => none
  | fuel + 1, s =>
    match skipWs s with
    | [] => none
    | c :: r =>
      if c = ']' then some ([], r)
      else if c = ',' then
        match parseValue fuel r with
        | none => none
        | some (v, r2) => (parseElemsMore fuel r2).map (fun p => (v :: p.1, p.2))
      else none

end

/-- Model of `JSON.parse`: one value, then only whitespace may remain. -/
def jsonParse (s : String) : Option JsValue :=
  match parseValue (s.data.length + 2) s.data with
  | some (v, rest) =>
    match skipWs rest with
    | [] => some v
    | _ => none
  | none => none

/-- The backtick character. -/
def backtickChar : Char := Char.ofNat 96

/-- The characters of the regex alternative matching a json-tagged fence opener. -/
def fenceJson : List Char := [backtickChar, backtickChar, backtickChar, 'j', 's', 'o', 'n']

/-- The characters of a bare triple-backtick fence. -/
def fencePlain : List Char := [backtickChar, backtickChar, backtickChar]

/-- Model of `s.replace(/```json|```/g, '')`: at each position, remove a
json-tagged fence first, else a bare fence, else keep the character. Each
step consumes at least one character, so fuel equal to the length suffices. -/
def stripFencesAux : Nat → List Char → List Char
  | 0, l => l
  | _ + 1, [] => []
  | fuel + 1, c :: cs =>
    if fenceJson.isPrefixOf (c :: cs) then stripFencesAux fuel (cs.drop 6)
    else if fencePlain.isPrefixOf (c :: cs) then stripFencesAux fuel (cs.drop 2)
    else c :: stripFencesAux fuel cs

/-- String-level fence stripping. -/
def stripFences (s : String) : String := String.mk (stripFencesAux s.data.length s.data)

/-- Whitespace removed by JavaScript `String.prototype.trim`. -/
def jsTrimWs (c : Char) : Bool :=
  c = ' ' || c = '\t' || c = '\n' || c = '\r' || c = Char.ofNat 11 || c = Char.ofNat 12 ||
  c = Char.ofNat 160 || c = Char.ofNat 0x2028 || c = Char.ofNat 0x2029 || c = Char.ofNat 0xfeff

/-- Trim on character lists: drop leading and trailing whitespace. -/
def trimL (l : List Char) : List Char :=
  ((l.dropWhile jsTrimWs).reverse.dropWhile jsTrimWs).reverse

/-- Model of JavaScript `trim()`. -/
def trimJs (s : String) : String := String.mk (trimL s.data)

/-- Model of JavaScript `s.substring(0, n)`: the first `n` characters. -/
def jsSubstring0 (s : String) (n : Nat) : String := String.mk (s.data.take n)

/-- Last-wins lookup among object members, as in a JavaScript object built by
`JSON.parse`, where a duplicated key keeps its final value. -/
def lookupLast (fields : List (String × JsValue)) (key : String) : Option JsValue :=
  (fields.reverse.find? (fun p => p.1 == key)).map (fun p => p.2)

/-- Property lookup on a parsed value: objects expose their members, every
other non-null value yields `undefined` (`none`). -/
def objLookup : JsValue → String → Option JsValue
  | JsValue.jobj fields, key => lookupLast fields key
  | _, _ => none

/-- JavaScript property access `v.key`: throws a TypeError on `null`,
otherwise returns the member value or `undefined` (`none`). -/
def jsGet (v : JsValue) (key : String) : Except Unit (Option JsValue) :=
  match v with
  | JsValue.jnull => Except.error ()
  | _ => Except.ok (objLookup v key)

/-- The `workflow_run` object of a webhook event. -/
structure WorkflowRun : Type where
  id : Nat
  conclusion : String
  jobs_url : String

/-- The `repository` object of a webhook event. -/
structure Repository : Type where
  id : Nat
  full_name : String

/-- A webhook event body; `workflow_run` may be absent. -/
structure Event : Type where
  action : String
  workflow_run : Option WorkflowRun
  repository : Repository

/-- One job of a workflow run, as returned by the job-listing endpoint. -/
structure Job : Type where
  id : Nat
  conclusion : String

/-- A stored analysis record, exactly the object pushed onto `analysesDB`.
`conclusion` and `suggestion` hold the parsed member values; `none` stands
for JavaScript `undefined` when the key is absent. -/
structure AnalysisRecord : Type where
  id : Nat
  repoId : Nat
  repoFullName : String
  githubRunId : Nat
  status : String
  conclusion : Option JsValue
  suggestion : Option JsValue
  rawLog : String
  createdAt : String

/-- Responses of the external world for one webhook delivery: the job
listing, the log fetch (redirect hop and body fetch collapsed; any failure,
including a missing Location header, is the error case), and the
generative-text completion as a function of the prompt sent. -/
structure Env : Type where
  jobsFetch : Except Unit (List Job)
  logFetch : String → Except Unit String
  generate : String → Except Unit String

/-- Observable outcome of one webhook delivery: the store afterwards, the
HTTP response, the job-log URL requested (if any) and the prompt sent to the
completion API (if any). -/
structure HandlerOut : Type where
  db : List AnalysisRecord
  status : Nat
  body : String
  requestedLogUrl : Option String
  sentPrompt : Option String

/-- The per-job log URL built by the handler. -/
def logUrlFor (fullName : String) (jobId : Nat) : String :=
  "https://api.github.com/repos/" ++ fullName ++ "/actions/jobs/" ++ toString jobId ++ "/logs"

/-- Text of the prompt template before the embedded log excerpt. -/
def promptPre : String :=
  "\n                You are an expert software development assistant. Analyze the following CI/CD error log and provide a concise root cause and a suggested fix.\n                Format your response as a JSON object with two keys: \"conclusion\" and \"suggestion\".\n\n                Log:\n                ---\n                "

/-- Text of the prompt template after the embedded log excerpt. -/
def promptPost : String := " \n                ---\n            "

/-- The prompt sent to the completion API: the template with the log text
truncated to its first 30000 characters. -/
def mkPrompt (logText : String) : String :=
  promptPre ++ jsSubstring0 logText 30000 ++ promptPost

/-- The record pushed onto `analysesDB` on pipeline success: `id` is the
store length plus one, `status` copies the run's conclusion, `rawLog` is the
truncated log. -/
def mkRecord (e : Event) (wr : WorkflowRun) (dbLen : Nat)
    (conc sugg : Option JsValue) (logText : String) (now : String) : AnalysisRecord :=
  { id := dbLen + 1
    repoId := e.repository.id
    repoFullName := e.repository.full_name
    githubRunId := wr.id
    status := wr.conclusion
    conclusion := conc
    suggestion := sugg
    rawLog := jsSubstring0 logText 30000
    createdAt := now }

/-- Outcome when the handler falls through to the final acknowledgement
without touching the log endpoint or the completion API. -/
def ackOut (db : List AnalysisRecord) : HandlerOut :=
  { db := db, status := 200, body := "Webhook received.", requestedLogUrl := none, sentPrompt := none }

/-- The webhook handler `POST /api/webhooks/github`. Qualification requires a
present `workflow_run`, `action = "completed"` and `conclusion = "failure"`;
a missing token answers 400 before any outbound call; any downstream error is
caught and the final acknowledgement is sent; on full success the record is
appended to the store. -/
def handleWebhook (env : Env) (token : Option String) (now : String)
    (e : Event) (db : List AnalysisRecord) : HandlerOut :=
  match e.workflow_run with
  | none => ackOut db
  | some wr =>
    if e.action = "completed" ∧ wr.conclusion = "failure" then
      match token with
      | none =>
        { db := db, status := 400, body := "Cannot process webhook without authentication context."
          requestedLogUrl := none, sentPrompt := none }
      | some _ =>
        match env.jobsFetch with
        | Except.error _ => ackOut db
        | Except.ok jobs =>
          match jobs.find? (fun j => j.conclusion == "failure") with
          | none =>
            { db := db, status := 200, body := "No failed job to analyze."
              requestedLogUrl := none, sentPrompt := none }
          | some j =>
            let url := logUrlFor e.repository.full_name j.id
            match env.logFetch url with
            | Except.error _ =>
              { db := db, status := 200, body := "Webhook received."
                requestedLogUrl := some url, sentPrompt := none }
            | Except.ok logText =>
              let prompt := mkPrompt logText
              match env.generate prompt with
              | Except.error _ =>
                { db := db, status := 200, body := "Webhook received."
                  requestedLogUrl := some url, sentPrompt := some prompt }
              | Except.ok responseText =>
                match jsonParse (trimJs (stripFences responseText)) with
                | none =>
                  { db := db, status := 200, body := "Webhook received."
                    requestedLogUrl := some url, sentPrompt := some prompt }
                | some v =>
                  match jsGet v "conclusion" with
                  | Except.error _ =>
                    { db := db, status := 200, body := "Webhook received."
                      requestedLogUrl := some url, sentPrompt := some prompt }
                  | Except.ok conc =>
                    match jsGet v "suggestion" with
                    | Except.error _ =>
                      { db := db, status := 200, body := "Webhook received."
                        requestedLogUrl := some url, sentPrompt := some prompt }
                    | Except.ok sugg =>
                      { db := db ++ [mkRecord e wr db.length conc sugg logText now]
                        status := 200, body := "Webhook received."
                        requestedLogUrl := some url, sentPrompt := some prompt }
    else ackOut db

/-- The query endpoint `GET /api/analyses/:repoId`: a linear filter of the
store by repository id, preserving insertion order. -/
def queryByRepo (db : List AnalysisRecord) (repoId : Nat) : List AnalysisRecord :=
  db.filter (fun a => a.repoId == repoId)

/-- Characters of the exact response text `{"conclusion":"X","suggestion":"Y"}`
with the placeholder strings spliced in. -/
def objData (x y : String) : List Char :=
  Char.ofNat 123 :: '"' :: "conclusion".data ++ '"' :: ':' :: '"' :: x.data ++
    '"' :: ',' :: '"' :: "suggestion".data ++ '"' :: ':' :: '"' :: y.data ++
    ['"', Char.ofNat 125]

/-- The exact response text `{"conclusion":"X","suggestion":"Y"}` with the
placeholder strings spliced in. -/
def objTxt (x y : String) : String := String.mk (objData x y)

/-- The characters of `objData` between the outer braces. -/
def objMid (x y : String) : List Char :=
  '"' :: "conclusion".data ++ '"' :: ':' :: '"' :: x.data ++
    '"' :: ',' :: '"' :: "suggestion".data ++ '"' :: ':' :: '"' :: y.data ++ ['"']

/-- A response wrapped in code-fence markup: three backticks tagged `json`, a
newline, the body, a newline and a closing fence. -/
def fencedWrap (s : String) : String :=
  String.mk (fenceJson ++ '\n' :: s.data ++ '\n' :: fencePlain)

/-- A character that passes unchanged through fence stripping, trimming
inside a JSON string literal, and JSON string parsing. -/
def plainChar (c : Char) : Prop :=
  c ≠ '"' ∧ c ≠ '\\' ∧ 32 ≤ c.toNat ∧ c ≠ backtickChar

instance : DecidablePred plainChar := fun c => by
  unfold plainChar
  exact inferInstance

/-- Consecutive naturals starting at `s`. -/
def seqFrom : Nat → Nat → List Nat
  | _, 0 => []
  | s, n + 1 => s :: seqFrom (s + 1) n

/-- The ids of the stored records, in store order. -/
def dbIds (db : List AnalysisRecord) : List Nat := db.map (fun r => r.id)

/-- The store invariant: ids are exactly `1, 2, …, length` in order. -/
def idsSeq (db : List AnalysisRecord) : Prop := dbIds db = seqFrom 1 db.length

/-- Fixture: a successful job preceding the failed ones. -/
def wJobOk : Job := ⟨5, "success"⟩

/-- Fixture: the first failed job. -/
def wJobBad : Job := ⟨11, "failure"⟩

/-- Fixture: a second failed job, later in listing order. -/
def wJobBad2 : Job := ⟨12, "failure"⟩

/-- Fixture: a failed workflow run. -/
def wRun : WorkflowRun := ⟨100, "failure", "https://api.github.com/run/100/jobs"⟩

/-- Fixture: the repository of the events. -/
def wRepo : Repository := ⟨7, "octo/demo"⟩

/-- Fixture: a qualifying webhook event. -/
def wEvent : Event := ⟨"completed", some wRun, wRepo⟩

/-- Fixture: a short log text. -/
def wLog : String := "npm ERR! missing script: build"

/-- Fixture: an environment whose pipeline succeeds end to end. -/
def wEnv : Env :=
  { jobsFetch := Except.ok [wJobOk, wJobBad, wJobBad2]
    logFetch := fun _ => Except.ok wLog
    generate := fun _ => Except.ok (objTxt "X" "Y") }

/-- Fixture: a non-qualifying event (its action is not "completed"). -/
def wEventIgnored : Event := ⟨"requested", some wRun, wRepo⟩

/-- Fixture: an environment whose job listing has no failed job. -/
def wEnvNoFail : Env := { wEnv with jobsFetch := Except.ok [wJobOk] }

/-- Fixture: a 50000-character log text. -/
def wLogBig : String := String.mk (List.replicate 50000 'a')

/-- Fixture: an environment returning the oversized log. -/
def wEnvBig : Env := { wEnv with logFetch := fun _ => Except.ok wLogBig }

/-- Fixture: an environment whose model answer is not JSON at all. -/
def wEnvBadJson : Env := { wEnv with generate := fun _ => Except.ok "oops" }

/-- Fixture: an environment whose model answer is valid JSON that lacks the
suggestion key. -/
def wEnvMissingKey : Env :=
  { wEnv with generate := fun _ => Except.ok "\x7b\"conclusion\":\"X\"\x7d" }

/-- Fixture: an environment answering with a concrete fenced-free object. -/
def wEnvRound : Env :=
  { wEnv with generate := fun _ => Except.ok (objTxt "Missing dependency" "Run npm install") }

/-- Fixture: the record stored by the first successful run against `wEnv`. -/
def wRec1 : AnalysisRecord :=
  mkRecord wEvent wRun 0 (some (JsValue.jstr "X")) (some (JsValue.jstr "Y")) wLog "t0"

/-- Fixture: the record stored by the second successful run against `wEnv`. -/
def wRec2 : AnalysisRecord :=
  mkRecord wEvent wRun 1 (some (JsValue.jstr "X")) (some (JsValue.jstr "Y")) wLog "t0"

/-- A find over a list where the predicate fails everywhere returns nothing. -/
theorem find?_eq_none_of_all {p : Job → Bool} {jobs : List Job}
    (h : ∀ j ∈ jobs, p j = false) : jobs.find? p = none := by
  induction jobs with
  | nil => rfl
  | cons a l ih =>
    have ha := h a (by simp)
    simp [List.find?_cons, ha]
    exact fun x hx => by simpa using h x (by simp [hx])

/-- A find over a list whose earlier elements all fail the predicate returns
the first element satisfying it, independently of what follows. -/
theorem find?_first {p : Job → Bool} (pre : List Job) (j : Job) (post : List Job)
    (hpre : ∀ a ∈ pre, p a = false) (hj : p j = true) :
    (pre ++ j :: post).find? p = some j := by
  induction pre with
  | nil => simp [List.find?_cons, hj]
  | cons a l ih =>
    have ha := hpre a (by simp)
    simpa [List.find?_cons, ha] using ih (fun x hx => hpre x (by simp [hx]))

/-- The handler either leaves the store unchanged or appends exactly one
record built by `mkRecord` at the current length. -/
theorem handle_db_shape (env : Env) (token : Option String) (now : String)
    (e : Event) (db : List AnalysisRecord) :
    (handleWebhook env token now e db).db = db ∨
    ∃ wr conc sugg logText, e.workflow_run = some wr ∧
      (handleWebhook env token now e db).db =
        db ++ [mkRecord e wr db.length conc sugg logText now] := by
  unfold handleWebhook
  repeat' split
  all_goals try exact Or.inl rfl
  all_goals try simp [ackOut]
  all_goals repeat' split
  all_goals try exact Or.inl rfl
  rename_i x1 wr heqwr hcond tok tv x2 jobs heqjobs x3 j heqj x4 logText heqlog x5 resp
    heqgen x6 v heqparse x7 conc heqconc x8 sugg heqsugg
  exact Or.inr ⟨wr, heqwr, conc, sugg, logText, rfl⟩

/-- A record the handler appended carries the next sequence id and the
event's repository id. -/
theorem appended_record_shape (env : Env) (token : Option String) (now : String)
    (e : Event) (db : List AnalysisRecord) (r : AnalysisRecord)
    (h : (handleWebhook env token now e db).db = db ++ [r]) :
    r.id = db.length + 1 ∧ r.repoId = e.repository.id := by
  rcases handle_db_shape env token now e db with hs | ⟨wr, conc, sugg, logText, hwr, hs⟩
  · rw [h] at hs
    exact absurd hs.symm (by simp)
  · rw [h] at hs
    have : r = mkRecord e wr db.length conc sugg logText now := by
      simpa using hs
    rw [this]
    exact ⟨rfl, rfl⟩

/-- Unfolding of consecutive naturals by one step at the end. -/
theorem seqFrom_snoc (s n : Nat) : seqFrom s (n + 1) = seqFrom s n ++ [s + n] := by
  induction n generalizing s with
  | zero => rfl
  | succ m ih =>
    show s :: seqFrom (s + 1) (m + 1) = (s :: seqFrom (s + 1) m) ++ [s + (m + 1)]
    rw [ih (s + 1), List.cons_append, Nat.add_assoc, Nat.add_comm 1 m]

/-- Bounds of the members of a consecutive-naturals list. -/
theorem mem_seqFrom {a : Nat} : ∀ {s n : Nat}, a ∈ seqFrom s n → s ≤ a ∧ a < s + n := by
  intro s n
  induction n generalizing s with
  | zero => intro h; simp [seqFrom] at h
  | succ m ih =>
    intro h
    rcases List.mem_cons.mp h with h | h
    · omega
    · have := ih h
      omega

/-- Consecutive naturals are strictly increasing. -/
theorem seqFrom_pairwise (s n : Nat) : List.Pairwise (· < ·) (seqFrom s n) := by
  induction n generalizing s with
  | zero => exact List.Pairwise.nil
  | succ m ih =>
    refine List.pairwise_cons.mpr ⟨?_, ih (s + 1)⟩
    intro b hb
    have := mem_seqFrom hb
    omega

/-- Consecutive naturals have no duplicates. -/
theorem seqFrom_nodup (s n : Nat) : (seqFrom s n).Nodup :=
  (seqFrom_pairwise s n).imp (fun h => Nat.ne_of_lt h)

/-- Property access by the handler on a non-null parsed value never throws. -/
theorem jsGet_ok {v : JsValue} (key : String) (hv : v ≠ JsValue.jnull) :
    jsGet v key = Except.ok (objLookup v key) := by
  cases v <;> simp [jsGet] at hv ⊢


theorem parseStrBody_plain (l rest : List Char) (h : ∀ c ∈ l, plainChar c) :
    parseStrBody (l ++ '"' :: rest) = some (l, rest) := by
  induction l with
  | nil => rfl
  | cons c cs ih =>
    obtain ⟨h1, h2, h3, _⟩ := h c (by simp)
    have hlt : ¬ c.toNat < 32 := by omega
    rw [List.cons_append, parseStrBody.eq_def]
    split
    · simp_all
    · simp_all
    · simp_all
    · simp_all
    · rename_i c' rest' hne1 hne2 hne3 heq
      rw [List.cons.injEq] at heq
      obtain ⟨hc, hr⟩ := heq
      subst hc; subst hr
      simp [hlt, ih (fun a ha => h a (by simp [ha]))]

theorem parseValue_objData (x y : String) (n : Nat)
    (hx : ∀ c ∈ x.data, plainChar c) (hy : ∀ c ∈ y.data, plainChar c) :
    parseValue (n + 4) (objData x y) =
      some (JsValue.jobj [("conclusion", JsValue.jstr x), ("suggestion", JsValue.jstr y)], []) := by
  have hmk : ∀ s : String, String.mk s.data = s := fun _ => rfl
  have hxs : ∀ r : List Char, parseStrBody (x.data ++ '"' :: r) = some (x.data, r) :=
    fun r => parseStrBody_plain _ r hx
  have hys : ∀ r : List Char, parseStrBody (y.data ++ '"' :: r) = some (y.data, r) :=
    fun r => parseStrBody_plain _ r hy
  simp only [objData]
  simp [parseValue, parseMembers, parseMembersMore, parseStrBody, skipWs, jsonWs,
    hxs, hys, hmk]

theorem stripFencesAux_nil (n : Nat) : stripFencesAux n [] = [] := by cases n <;> rfl

theorem stripFencesAux_keep (l m : List Char) (n : Nat) (h : ∀ c ∈ l, c ≠ backtickChar) :
    stripFencesAux (l.length + n) (l ++ m) = l ++ stripFencesAux n m := by
  induction l with
  | nil => simp
  | cons c cs ih =>
    have hc := h c (by simp)
    have hc' : ¬ (backtickChar = c) := fun hh => hc hh.symm
    show stripFencesAux (cs.length + 1 + n) (c :: (cs ++ m)) = c :: (cs ++ stripFencesAux n m)
    rw [show cs.length + 1 + n = (cs.length + n) + 1 from by omega]
    simp only [stripFencesAux]
    simp [fenceJson, fencePlain, List.isPrefixOf, hc', ih (fun a ha => h a (by simp [ha]))]

theorem strip_fence_step (m : List Char) :
    stripFencesAux (m.length + 7) (fenceJson ++ m) = stripFencesAux (m.length + 6) m := by
  rw [show fenceJson ++ m =
    backtickChar :: (backtickChar :: backtickChar :: 'j' :: 's' :: 'o' :: 'n' :: m)
    from by simp [fenceJson]]
  rw [show m.length + 7 = (m.length + 6) + 1 from rfl]
  simp only [stripFencesAux]
  rw [if_pos (by simp [fenceJson, List.isPrefixOf])]
  try rfl

theorem strip_fencedWrap (s : String) (h : ∀ c ∈ s.data, c ≠ backtickChar) :
    stripFencesAux (fencedWrap s).data.length (fencedWrap s).data =
      '\n' :: s.data ++ ['\n'] := by
  have hlen : (fencedWrap s).data.length = ('\n' :: s.data ++ '\n' :: fencePlain).length + 7 := by
    show (fenceJson ++ ('\n' :: s.data ++ '\n' :: fencePlain)).length = _
    simp [fenceJson]
  rw [hlen, show (fencedWrap s).data = fenceJson ++ ('\n' :: s.data ++ '\n' :: fencePlain)
    from rfl, strip_fence_step]
  have hfl : ('\n' :: s.data ++ '\n' :: fencePlain).length + 6 =
      ('\n' :: s.data ++ ['\n']).length + 9 := by
    simp [fencePlain] <;> omega
  have harr : '\n' :: s.data ++ '\n' :: fencePlain = ('\n' :: s.data ++ ['\n']) ++ fencePlain := by
    simp
  rw [hfl, harr, stripFencesAux_keep _ _ _ ?hbt]
  case hbt =>
    intro a ha
    simp at ha
    rcases ha with ha | ha | ha
    · subst ha; decide
    · exact h a ha
    · subst ha; decide
  rw [show stripFencesAux 9 fencePlain = [] from rfl]
  simp

theorem trimL_ends (c d : Char) (l : List Char)
    (hc : jsTrimWs c = false) (hd : jsTrimWs d = false) :
    trimL (c :: l ++ [d]) = c :: l ++ [d] := by
  simp [trimL, List.dropWhile_cons, hc, hd, List.reverse_append]

theorem trimL_pad (c d : Char) (l : List Char)
    (hc : jsTrimWs c = false) (hd : jsTrimWs d = false) :
    trimL ('\n' :: (c :: l ++ [d]) ++ ['\n']) = c :: l ++ [d] := by
  have hnl : jsTrimWs '\n' = true := by decide
  simp [trimL, List.dropWhile_cons, List.dropWhile_append, hc, hd, hnl, List.reverse_append]

theorem objData_split (x y : String) :
    objData x y = Char.ofNat 123 :: objMid x y ++ [Char.ofNat 125] := by
  simp [objData, objMid]

theorem objData_no_backtick (x y : String)
    (hx : ∀ c ∈ x.data, plainChar c) (hy : ∀ c ∈ y.data, plainChar c) :
    ∀ c ∈ objData x y, c ≠ backtickChar := by
  have hX : ∀ c ∈ x.data, c ≠ backtickChar := fun c hc => (hx c hc).2.2.2
  have hY : ∀ c ∈ y.data, c ≠ backtickChar := fun c hc => (hy c hc).2.2.2
  intro c hc
  simp only [objData, List.mem_cons, List.mem_append] at hc
  casesm* _ ∨ _
  all_goals first
    | (rename_i h; exact hX c h)
    | (rename_i h; exact hY c h)
    | (rename_i h; subst h; decide)
    | (rename_i h; simp at h)

theorem objTxt_data (x y : String) : (objTxt x y).data = objData x y := rfl

theorem jsonParse_objTxt (x y : String)
    (hx : ∀ c ∈ x.data, plainChar c) (hy : ∀ c ∈ y.data, plainChar c) :
    jsonParse (objTxt x y) =
      some (JsValue.jobj [("conclusion", JsValue.jstr x), ("suggestion", JsValue.jstr y)]) := by
  unfold jsonParse
  rw [objTxt_data]
  have hlen : (objData x y).length + 2 = (x.data.length + y.data.length + 31) + 4 := by
    simp [objData]
    omega
  rw [hlen, parseValue_objData x y _ hx hy]
  rfl

theorem stripTrim_plain (x y : String)
    (hx : ∀ c ∈ x.data, plainChar c) (hy : ∀ c ∈ y.data, plainChar c) :
    trimJs (stripFences (objTxt x y)) = objTxt x y := by
  have hb := objData_no_backtick x y hx hy
  have h1 : stripFences (objTxt x y) = objTxt x y := by
    show String.mk (stripFencesAux (objData x y).length (objData x y)) = objTxt x y
    have hk := stripFencesAux_keep (objData x y) [] 0 hb
    rw [List.append_nil, Nat.add_zero, stripFencesAux_nil, List.append_nil] at hk
    rw [hk]
    rfl
  rw [h1]
  show String.mk (trimL (objData x y)) = objTxt x y
  rw [objData_split, trimL_ends _ _ _ (by decide) (by decide), ← objData_split]
  rfl

theorem stripTrim_fenced (x y : String)
    (hx : ∀ c ∈ x.data, plainChar c) (hy : ∀ c ∈ y.data, plainChar c) :
    trimJs (stripFences (fencedWrap (objTxt x y))) = objTxt x y := by
  have hb := objData_no_backtick x y hx hy
  have h1 : stripFences (fencedWrap (objTxt x y)) = String.mk ('\n' :: objData x y ++ ['\n']) := by
    show String.mk (stripFencesAux (fencedWrap (objTxt x y)).data.length
      (fencedWrap (objTxt x y)).data) = _
    rw [strip_fencedWrap (objTxt x y) hb]
    rfl
  rw [h1]
  show String.mk (trimL ('\n' :: objData x y ++ ['\n'])) = objTxt x y
  rw [objData_split, trimL_pad _ _ _ (by decide) (by decide), ← objData_split]
  rfl

/-- Claim C1: for every webhook event whose action is not "completed" or whose
workflow_run conclusion is not "failure", the handler appends no record to the
store and responds with the success acknowledgement (HTTP 200). -/
theorem C1_nonqualifying_ignored (env : Env) (token : Option String) (now : String)
    (e : Event) (db : List AnalysisRecord)
    (h : e.action ≠ "completed" ∨ ∀ wr, e.workflow_run = some wr → wr.conclusion ≠ "failure") :
    (handleWebhook env token now e db).db = db ∧
    (handleWebhook env token now e db).status = 200 ∧
    (handleWebhook env token now e db).body = "Webhook received." := by
  cases hwr : e.workflow_run with
  | none => simp [handleWebhook, hwr, ackOut]
  | some wr =>
    have hcond : ¬ (e.action = "completed" ∧ wr.conclusion = "failure") := by
      rcases h with h | h
      · exact fun hc => h hc.1
      · exact fun hc => h wr hwr hc.2
    simp [handleWebhook, hwr, hcond, ackOut]

/-- Witness for C1 at a concrete non-qualifying event. -/
theorem C1_nonqualifying_ignored_witness :
    (wEventIgnored.action ≠ "completed" ∨
      ∀ wr, wEventIgnored.workflow_run = some wr → wr.conclusion ≠ "failure") ∧
    ((handleWebhook wEnv (some "tok") "t0" wEventIgnored []).db = [] ∧
      (handleWebhook wEnv (some "tok") "t0" wEventIgnored []).status = 200 ∧
      (handleWebhook wEnv (some "tok") "t0" wEventIgnored []).body = "Webhook received.") :=
  ⟨Or.inl (by decide), C1_nonqualifying_ignored wEnv (some "tok") "t0" wEventIgnored []
    (Or.inl (by decide))⟩

/-- Claim C2 counterexample: a model response that is valid JSON but lacks the
suggestion key still results in a record being appended, refuting the claim
that such an event stores nothing. -/
theorem C2_missing_key_appends_counterexample :
    jsonParse (trimJs (stripFences "\x7b\"conclusion\":\"X\"\x7d")) =
      some (JsValue.jobj [("conclusion", JsValue.jstr "X")]) ∧
    (handleWebhook wEnvMissingKey (some "tok") "t0" wEvent []).db =
      [mkRecord wEvent wRun 0 (some (JsValue.jstr "X")) none wLog "t0"] :=
  ⟨rfl, rfl⟩

/-- Claim C2 as amended: for a qualifying event, if the model response (after
stripping fences and trimming) is not valid JSON or parses to JSON null, no
record is appended; if it parses to any other value, a record is appended
whose conclusion and suggestion fields hold the looked-up members, absent
keys stored as absent rather than aborting. -/
theorem C2_parse_failure_drops (env : Env) (token : Option String) (now : String) (e : Event)
    (wr : WorkflowRun) (db : List AnalysisRecord) (t : String) (jobs : List Job)
    (j : Job) (logText resp : String)
    (hwr : e.workflow_run = some wr) (hact : e.action = "completed")
    (hconc : wr.conclusion = "failure") (htok : token = some t)
    (hjobs : env.jobsFetch = Except.ok jobs)
    (hfind : jobs.find? (fun jb => jb.conclusion == "failure") = some j)
    (hlog : env.logFetch (logUrlFor e.repository.full_name j.id) = Except.ok logText)
    (hgen : env.generate (mkPrompt logText) = Except.ok resp) :
    (jsonParse (trimJs (stripFences resp)) = none ∨
      jsonParse (trimJs (stripFences resp)) = some JsValue.jnull →
      (handleWebhook env token now e db).db = db) ∧
    (∀ v, jsonParse (trimJs (stripFences resp)) = some v → v ≠ JsValue.jnull →
      (handleWebhook env token now e db).db =
        db ++ [mkRecord e wr db.length (objLookup v "conclusion") (objLookup v "suggestion")
          logText now]) := by
  constructor
  · intro hp
    rcases hp with hp | hp
    · simp [handleWebhook, hwr, hact, hconc, htok, hjobs, hfind, hlog, hgen, hp]
    · simp [handleWebhook, hwr, hact, hconc, htok, hjobs, hfind, hlog, hgen, hp, jsGet]
  · intro v hp hv
    have hc := jsGet_ok (v := v) "conclusion" hv
    have hs := jsGet_ok (v := v) "suggestion" hv
    simp [handleWebhook, hwr, hact, hconc, htok, hjobs, hfind, hlog, hgen, hp, hc, hs]

/-- Witness for the amended C2 at a concrete non-JSON model response. -/
theorem C2_parse_failure_drops_witness :
    (wEvent.workflow_run = some wRun ∧ wEvent.action = "completed" ∧
      wRun.conclusion = "failure" ∧
      wEnvBadJson.jobsFetch = Except.ok [wJobOk, wJobBad, wJobBad2] ∧
      [wJobOk, wJobBad, wJobBad2].find? (fun jb => jb.conclusion == "failure") = some wJobBad ∧
      wEnvBadJson.logFetch (logUrlFor wEvent.repository.full_name wJobBad.id) = Except.ok wLog ∧
      wEnvBadJson.generate (mkPrompt wLog) = Except.ok "oops") ∧
    ((jsonParse (trimJs (stripFences "oops")) = none ∨
      jsonParse (trimJs (stripFences "oops")) = some JsValue.jnull →
      (handleWebhook wEnvBadJson (some "tok") "t0" wEvent []).db = []) ∧
    (∀ v, jsonParse (trimJs (stripFences "oops")) = some v → v ≠ JsValue.jnull →
      (handleWebhook wEnvBadJson (some "tok") "t0" wEvent []).db =
        [] ++ [mkRecord wEvent wRun 0 (objLookup v "conclusion") (objLookup v "suggestion")
          wLog "t0"])) :=
  ⟨⟨rfl, rfl, rfl, rfl, rfl, rfl, rfl⟩,
    C2_parse_failure_drops wEnvBadJson (some "tok") "t0" wEvent wRun [] "tok"
      [wJobOk, wJobBad, wJobBad2] wJobBad wLog "oops" rfl rfl rfl rfl rfl rfl rfl rfl⟩

/-- Claim C3: two qualifying events that each append a record in sequence get
strictly increasing ids; given the store invariant that ids are the sequence
1..length, the invariant is preserved, the ids of the whole store stay unique
and strictly increasing, and the query by the shared repository id returns
the two new records in insertion order after the previously stored ones. -/
theorem C3_ids_strictly_increasing (env1 env2 : Env) (tok1 tok2 : Option String)
    (now1 now2 : String) (e1 e2 : Event) (db : List AnalysisRecord) (repoIdv : Nat)
    (r1 r2 : AnalysisRecord)
    (hseq : idsSeq db)
    (hR1 : e1.repository.id = repoIdv) (hR2 : e2.repository.id = repoIdv)
    (h1 : (handleWebhook env1 tok1 now1 e1 db).db = db ++ [r1])
    (h2 : (handleWebhook env2 tok2 now2 e2 (db ++ [r1])).db = (db ++ [r1]) ++ [r2]) :
    r1.id < r2.id ∧ idsSeq ((db ++ [r1]) ++ [r2]) ∧
    List.Pairwise (· < ·) (dbIds ((db ++ [r1]) ++ [r2])) ∧
    (dbIds ((db ++ [r1]) ++ [r2])).Nodup ∧
    queryByRepo ((db ++ [r1]) ++ [r2]) repoIdv = queryByRepo db repoIdv ++ [r1, r2] := by
  obtain ⟨hid1, hrep1⟩ := appended_record_shape env1 tok1 now1 e1 db r1 h1
  obtain ⟨hid2, hrep2⟩ := appended_record_shape env2 tok2 now2 e2 (db ++ [r1]) r2 h2
  have hid2' : r2.id = db.length + 2 := by simpa using hid2
  have hids : dbIds ((db ++ [r1]) ++ [r2]) = seqFrom 1 (db.length + 2) := by
    have step1 : seqFrom 1 (db.length + 1) = seqFrom 1 db.length ++ [db.length + 1] := by
      rw [seqFrom_snoc, Nat.add_comm 1 db.length]
    have step2 : seqFrom 1 (db.length + 2) = seqFrom 1 (db.length + 1) ++ [db.length + 2] := by
      rw [show db.length + 2 = (db.length + 1) + 1 from rfl, seqFrom_snoc,
        Nat.add_comm 1 (db.length + 1)]
    have hbase : dbIds db = seqFrom 1 db.length := hseq
    simp [dbIds, List.map_append, step1, step2] at *
    simp [hbase, hid1, hid2']
  refine ⟨by omega, ?_, ?_, ?_, ?_⟩
  · show dbIds ((db ++ [r1]) ++ [r2]) = seqFrom 1 ((db ++ [r1]) ++ [r2]).length
    rw [hids]
    congr 1
    simp
  · rw [hids]; exact seqFrom_pairwise 1 (db.length + 2)
  · rw [hids]; exact seqFrom_nodup 1 (db.length + 2)
  · have hb1 : (r1.repoId == repoIdv) = true := by
      simp [hrep1, hR1]
    have hb2 : (r2.repoId == repoIdv) = true := by
      simp [hrep2, hR2]
    simp [queryByRepo, List.filter_append, hb1, hb2]

/-- Witness for C3: two concrete successful runs against an empty store. -/
theorem C3_ids_strictly_increasing_witness :
    (idsSeq [] ∧ wEvent.repository.id = 7 ∧
      (handleWebhook wEnv (some "tok") "t0" wEvent []).db = [] ++ [wRec1] ∧
      (handleWebhook wEnv (some "tok") "t0" wEvent ([] ++ [wRec1])).db =
        ([] ++ [wRec1]) ++ [wRec2]) ∧
    (wRec1.id < wRec2.id ∧ idsSeq (([] ++ [wRec1]) ++ [wRec2]) ∧
      List.Pairwise (· < ·) (dbIds (([] ++ [wRec1]) ++ [wRec2])) ∧
      (dbIds (([] ++ [wRec1]) ++ [wRec2])).Nodup ∧
      queryByRepo (([] ++ [wRec1]) ++ [wRec2]) 7 = queryByRepo [] 7 ++ [wRec1, wRec2]) :=
  ⟨⟨rfl, rfl, rfl, rfl⟩,
    C3_ids_strictly_increasing wEnv wEnv (some "tok") (some "tok") "t0" "t0" wEvent wEvent
      [] 7 wRec1 wRec2 rfl rfl rfl rfl rfl⟩

/-- Claim C4: for a qualifying event whose log is at most 30000 characters and
whose model response is exactly the object text with conclusion X and
suggestion Y, optionally wrapped in code-fence markup, the stored record's
conclusion is exactly X and its suggestion exactly Y, for any X and Y made of
plain characters. -/
theorem C4_roundtrip_exact (env : Env) (token : Option String) (now : String) (e : Event)
    (wr : WorkflowRun) (db : List AnalysisRecord) (t : String) (jobs : List Job)
    (j : Job) (logText x y : String)
    (hwr : e.workflow_run = some wr) (hact : e.action = "completed")
    (hconc : wr.conclusion = "failure") (htok : token = some t)
    (hjobs : env.jobsFetch = Except.ok jobs)
    (hfind : jobs.find? (fun jb => jb.conclusion == "failure") = some j)
    (hlog : env.logFetch (logUrlFor e.repository.full_name j.id) = Except.ok logText)
    (hlen : logText.length ≤ 30000)
    (hx : ∀ c ∈ x.data, plainChar c) (hy : ∀ c ∈ y.data, plainChar c)
    (hresp : env.generate (mkPrompt logText) = Except.ok (objTxt x y) ∨
             env.generate (mkPrompt logText) = Except.ok (fencedWrap (objTxt x y))) :
    (handleWebhook env token now e db).db =
      db ++ [mkRecord e wr db.length (some (JsValue.jstr x)) (some (JsValue.jstr y)) logText now] ∧
    ∀ r, (handleWebhook env token now e db).db = db ++ [r] →
      r.conclusion = some (JsValue.jstr x) ∧ r.suggestion = some (JsValue.jstr y) := by
  have hparse : ∀ resp : String, trimJs (stripFences resp) = objTxt x y →
      jsonParse (trimJs (stripFences resp)) =
        some (JsValue.jobj [("conclusion", JsValue.jstr x), ("suggestion", JsValue.jstr y)]) := by
    intro resp hr
    rw [hr]
    exact jsonParse_objTxt x y hx hy
  have hkey : ("suggestion" == "conclusion") = false := by decide
  have hmain : (handleWebhook env token now e db).db =
      db ++ [mkRecord e wr db.length (some (JsValue.jstr x)) (some (JsValue.jstr y)) logText now] := by
    rcases hresp with hgen | hgen
    · have hp := hparse (objTxt x y) (stripTrim_plain x y hx hy)
      simp [handleWebhook, hwr, hact, hconc, htok, hjobs, hfind, hlog, hgen, hp,
        jsGet, objLookup, lookupLast, List.find?, hkey]
    · have hp := hparse (fencedWrap (objTxt x y)) (stripTrim_fenced x y hx hy)
      simp [handleWebhook, hwr, hact, hconc, htok, hjobs, hfind, hlog, hgen, hp,
        jsGet, objLookup, lookupLast, List.find?, hkey]
  refine ⟨hmain, ?_⟩
  intro r hr
  rw [hmain] at hr
  have hrr : mkRecord e wr db.length (some (JsValue.jstr x)) (some (JsValue.jstr y)) logText now
      = r := by
    simpa using hr
  rw [← hrr]
  exact ⟨rfl, rfl⟩

/-- Witness for C4 at concrete placeholder strings, unfenced. -/
theorem C4_roundtrip_exact_witness :
    (wEvent.workflow_run = some wRun ∧ wEvent.action = "completed" ∧
      wRun.conclusion = "failure" ∧
      wEnvRound.jobsFetch = Except.ok [wJobOk, wJobBad, wJobBad2] ∧
      [wJobOk, wJobBad, wJobBad2].find? (fun jb => jb.conclusion == "failure") = some wJobBad ∧
      wEnvRound.logFetch (logUrlFor wEvent.repository.full_name wJobBad.id) = Except.ok wLog ∧
      wLog.length ≤ 30000 ∧
      (∀ c ∈ "Missing dependency".data, plainChar c) ∧
      (∀ c ∈ "Run npm install".data, plainChar c) ∧
      wEnvRound.generate (mkPrompt wLog) =
        Except.ok (objTxt "Missing dependency" "Run npm install")) ∧
    ((handleWebhook wEnvRound (some "tok") "t0" wEvent []).db =
      [] ++ [mkRecord wEvent wRun 0 (some (JsValue.jstr "Missing dependency"))
        (some (JsValue.jstr "Run npm install")) wLog "t0"] ∧
    ∀ r, (handleWebhook wEnvRound (some "tok") "t0" wEvent []).db = [] ++ [r] →
      r.conclusion = some (JsValue.jstr "Missing dependency") ∧
      r.suggestion = some (JsValue.jstr "Run npm install")) :=
  ⟨⟨rfl, rfl, rfl, rfl, rfl, rfl, by decide, by decide, by decide, rfl⟩,
    C4_roundtrip_exact wEnvRound (some "tok") "t0" wEvent wRun [] "tok"
      [wJobOk, wJobBad, wJobBad2] wJobBad wLog "Missing dependency" "Run npm install"
      rfl rfl rfl rfl rfl rfl rfl (by decide) (by decide) (by decide) (Or.inl rfl)⟩

/-- Claim C5: for a qualifying event whose fetched log exceeds 30000
characters, the prompt sent to the completion API embeds exactly the first
30000 characters of the log, such an excerpt has length 30000, and any record
the handler appends stores exactly that excerpt as its rawLog. -/
theorem C5_truncation_30000 (env : Env) (token : Option String) (now : String) (e : Event)
    (wr : WorkflowRun) (db : List AnalysisRecord) (t : String) (jobs : List Job)
    (j : Job) (logText : String)
    (hwr : e.workflow_run = some wr) (hact : e.action = "completed")
    (hconc : wr.conclusion = "failure") (htok : token = some t)
    (hjobs : env.jobsFetch = Except.ok jobs)
    (hfind : jobs.find? (fun jb => jb.conclusion == "failure") = some j)
    (hlog : env.logFetch (logUrlFor e.repository.full_name j.id) = Except.ok logText)
    (hlen : 30000 < logText.length) :
    (handleWebhook env token now e db).sentPrompt =
      some (promptPre ++ String.mk (logText.data.take 30000) ++ promptPost) ∧
    (String.mk (logText.data.take 30000)).length = 30000 ∧
    ∀ r, (handleWebhook env token now e db).db = db ++ [r] →
      r.rawLog = String.mk (logText.data.take 30000) := by
  refine ⟨?_, ?_, ?_⟩
  · simp only [handleWebhook, hwr, hact, hconc, htok, hjobs, hfind, hlog]
    simp only [and_self, if_true]
    repeat' split
    all_goals rfl
  · show (logText.data.take 30000).length = 30000
    rw [List.length_take]
    have : logText.length = logText.data.length := rfl
    omega
  · simp only [handleWebhook, hwr, hact, hconc, htok, hjobs, hfind, hlog]
    simp only [and_self, if_true]
    repeat' split
    all_goals intro r hr
    all_goals simp at hr
    subst hr
    rfl

/-- Witness for C5 at a concrete 50000-character log. -/
theorem C5_truncation_30000_witness :
    (wEvent.workflow_run = some wRun ∧ wEvent.action = "completed" ∧
      wRun.conclusion = "failure" ∧
      wEnvBig.jobsFetch = Except.ok [wJobOk, wJobBad, wJobBad2] ∧
      [wJobOk, wJobBad, wJobBad2].find? (fun jb => jb.conclusion == "failure") = some wJobBad ∧
      wEnvBig.logFetch (logUrlFor wEvent.repository.full_name wJobBad.id) = Except.ok wLogBig ∧
      30000 < wLogBig.length) ∧
    ((handleWebhook wEnvBig (some "tok") "t0" wEvent []).sentPrompt =
      some (promptPre ++ String.mk (wLogBig.data.take 30000) ++ promptPost) ∧
    (String.mk (wLogBig.data.take 30000)).length = 30000 ∧
    ∀ r, (handleWebhook wEnvBig (some "tok") "t0" wEvent []).db = [] ++ [r] →
      r.rawLog = String.mk (wLogBig.data.take 30000)) :=
  have hbig : 30000 < wLogBig.length := by
    show 30000 < (List.replicate 50000 'a').length
    rw [List.length_replicate]
    omega
  ⟨⟨rfl, rfl, rfl, rfl, rfl, rfl, hbig⟩,
    C5_truncation_30000 wEnvBig (some "tok") "t0" wEvent wRun [] "tok"
      [wJobOk, wJobBad, wJobBad2] wJobBad wLogBig rfl rfl rfl rfl rfl rfl rfl hbig⟩

/-- Claim C6: for a qualifying event whose job list splits as earlier jobs
without a failure conclusion, then a failed job, then any tail, the job whose
log the handler requests is exactly that first failed job, whatever failed
jobs follow it. -/
theorem C6_first_failed_job_selected (env : Env) (token : Option String) (now : String)
    (e : Event) (wr : WorkflowRun) (db : List AnalysisRecord) (t : String)
    (pre : List Job) (j : Job) (post : List Job)
    (hwr : e.workflow_run = some wr) (hact : e.action = "completed")
    (hconc : wr.conclusion = "failure") (htok : token = some t)
    (hjobs : env.jobsFetch = Except.ok (pre ++ j :: post))
    (hpre : ∀ a ∈ pre, a.conclusion ≠ "failure") (hj : j.conclusion = "failure") :
    (handleWebhook env token now e db).requestedLogUrl =
      some (logUrlFor e.repository.full_name j.id) := by
  have hfind : (pre ++ j :: post).find? (fun a => a.conclusion == "failure") = some j := by
    apply find?_first
    · intro a ha; simpa using hpre a ha
    · simpa using hj
  simp only [handleWebhook, hwr, hact, hconc, htok, hjobs, hfind]
  simp only [and_self, if_true, eq_self_iff_true]
  repeat' split
  all_goals try simp
  all_goals repeat' split
  all_goals simp

/-- Witness for C6: the failed job at position two is selected, not the later
one. -/
theorem C6_first_failed_job_selected_witness :
    (wEvent.workflow_run = some wRun ∧ wEvent.action = "completed" ∧
      wRun.conclusion = "failure" ∧
      wEnv.jobsFetch = Except.ok ([wJobOk] ++ wJobBad :: [wJobBad2]) ∧
      (∀ a ∈ [wJobOk], a.conclusion ≠ "failure") ∧ wJobBad.conclusion = "failure") ∧
    (handleWebhook wEnv (some "tok") "t0" wEvent []).requestedLogUrl =
      some (logUrlFor wEvent.repository.full_name wJobBad.id) :=
  ⟨⟨rfl, rfl, rfl, rfl, by decide, rfl⟩,
    C6_first_failed_job_selected wEnv (some "tok") "t0" wEvent wRun [] "tok"
      [wJobOk] wJobBad [wJobBad2] rfl rfl rfl rfl rfl (by decide) rfl⟩

/-- Claim C7: for a qualifying event with no credential configured, the
handler answers 400 with the fixed message, appends nothing, requests no log
URL and sends no prompt; the outcome is the same constant for every
environment, so it precedes any outbound call. -/
theorem C7_missing_credential_400 (env : Env) (now : String) (e : Event) (wr : WorkflowRun)
    (db : List AnalysisRecord)
    (hwr : e.workflow_run = some wr) (hact : e.action = "completed")
    (hconc : wr.conclusion = "failure") :
    handleWebhook env none now e db =
      { db := db, status := 400, body := "Cannot process webhook without authentication context."
        requestedLogUrl := none, sentPrompt := none } := by
  simp [handleWebhook, hwr, hact, hconc]

/-- Witness for C7 at the concrete qualifying event. -/
theorem C7_missing_credential_400_witness :
    (wEvent.workflow_run = some wRun ∧ wEvent.action = "completed" ∧
      wRun.conclusion = "failure") ∧
    handleWebhook wEnv none "t0" wEvent [] =
      { db := [], status := 400, body := "Cannot process webhook without authentication context."
        requestedLogUrl := none, sentPrompt := none } :=
  ⟨⟨rfl, rfl, rfl⟩, C7_missing_credential_400 wEnv "t0" wEvent wRun [] rfl rfl rfl⟩

/-- Claim C8: for a qualifying event whose job list holds no job concluded
"failure", the pipeline stops: the handler answers 200 with the fixed
message, appends nothing, requests no log URL and sends no prompt. -/
theorem C8_no_failed_job_ack (env : Env) (token : Option String) (now : String) (e : Event)
    (wr : WorkflowRun) (db : List AnalysisRecord) (t : String) (jobs : List Job)
    (hwr : e.workflow_run = some wr) (hact : e.action = "completed")
    (hconc : wr.conclusion = "failure") (htok : token = some t)
    (hjobs : env.jobsFetch = Except.ok jobs)
    (hnone : ∀ j ∈ jobs, j.conclusion ≠ "failure") :
    handleWebhook env token now e db =
      { db := db, status := 200, body := "No failed job to analyze."
        requestedLogUrl := none, sentPrompt := none } := by
  have hfind : jobs.find? (fun j => j.conclusion == "failure") = none := by
    apply find?_eq_none_of_all
    intro j hj
    simpa using hnone j hj
  simp [handleWebhook, hwr, hact, hconc, htok, hjobs, hfind]

/-- Witness for C8 at a job list holding only a succeeded job. -/
theorem C8_no_failed_job_ack_witness :
    (wEvent.workflow_run = some wRun ∧ wEvent.action = "completed" ∧
      wRun.conclusion = "failure" ∧ wEnvNoFail.jobsFetch = Except.ok [wJobOk] ∧
      (∀ j ∈ [wJobOk], j.conclusion ≠ "failure")) ∧
    handleWebhook wEnvNoFail (some "tok") "t0" wEvent [] =
      { db := [], status := 200, body := "No failed job to analyze."
        requestedLogUrl := none, sentPrompt := none } :=
  ⟨⟨rfl, rfl, rfl, rfl, by decide⟩,
    C8_no_failed_job_ack wEnvNoFail (some "tok") "t0" wEvent wRun [] "tok" [wJobOk]
      rfl rfl rfl rfl rfl (by decide)⟩

/-- Claim C9: whatever the environment responses and the event, the handler's
status is 200, except that a missing credential yields 400; no internal
failure ever produces another status toward the webhook sender. -/
theorem C9_always_200_except_missing_credential (env : Env) (token : Option String)
    (now : String) (e : Event) (db : List AnalysisRecord) :
    (handleWebhook env token now e db).status = 200 ∨
    ((handleWebhook env token now e db).status = 400 ∧ token = none) := by
  unfold handleWebhook
  repeat' split
  all_goals try simp [ackOut]
  all_goals repeat' split
  all_goals simp [ackOut]

/-- Claim C10: if every stored record has status "failure", then after any
webhook delivery every stored record still has status "failure"; the record's
status copies the run conclusion, which the qualification guard pins to
"failure". -/
theorem C10_status_always_failure (env : Env) (token : Option String) (now : String)
    (e : Event) (db : List AnalysisRecord)
    (hdb : ∀ r ∈ db, r.status = "failure") :
    ∀ r ∈ (handleWebhook env token now e db).db, r.status = "failure" := by
  unfold handleWebhook
  repeat' split
  all_goals try simp [ackOut, mkRecord]
  all_goals try exact hdb
  all_goals repeat' split
  all_goals simp_all [ackOut, mkRecord]
  all_goals intro r hr
  all_goals rcases hr with hr | hr
  · exact hdb r hr
  · simp [hr]

/-- Witness for C10: a successful concrete delivery against an empty store. -/
theorem C10_status_always_failure_witness :
    (∀ r ∈ ([] : List AnalysisRecord), r.status = "failure") ∧
    ∀ r ∈ (handleWebhook wEnv (some "tok") "t0" wEvent []).db, r.status = "failure" :=
  ⟨by simp, C10_status_always_failure wEnv (some "tok") "t0" wEvent [] (by simp)⟩
